import Mathlib

set_option maxRecDepth 100000

/-!
Verification of `scripts/gen_integration_tests.py`: a shallow embedding of the
generator's string scanning, declaration-model extraction, expression
synthesis and test emission, together with theorems about the behaviours the
specification describes.

Python strings are modelled as Lean `String` (a list of characters);
Python `re` patterns are embedded as explicit character-level matchers whose
deterministic behaviour coincides with the backtracking semantics of the
concrete patterns used by the script (each pattern in the script is
anchored and its character classes are disjoint from the literal characters
that follow them, so greedy matching is forced and no search is needed,
except where noted).  Machine-level concerns do not arise: the script is
pure text manipulation.
-/

namespace GenIT

/-- ASCII code point of a character (the scripts only ever branch on ASCII). -/
def cp (c : Char) : Nat := c.toNat

/-- Python `str.isspace` / regex `\s`, restricted to the ASCII whitespace
characters that can occur in the embedded sources: space, tab, LF, CR, VT, FF. -/
def isPySpace (c : Char) : Bool :=
  cp c = 32 || cp c = 9 || cp c = 10 || cp c = 13 || cp c = 11 || cp c = 12

/-- Regex class `[A-Z]`. -/
def isUpperAZ (c : Char) : Bool := 65 ≤ cp c && cp c ≤ 90

/-- Regex class `[a-z]`. -/
def isLowerAZ (c : Char) : Bool := 97 ≤ cp c && cp c ≤ 122

/-- Regex class `[0-9]`. -/
def isDigit09 (c : Char) : Bool := 48 ≤ cp c && cp c ≤ 57

/-- Regex class `[A-Za-z]`. -/
def isLetterAZ (c : Char) : Bool := isUpperAZ c || isLowerAZ c

/-- Regex class `[A-Za-z0-9_]` (`\w` over ASCII). -/
def isWordChar (c : Char) : Bool :=
  isUpperAZ c || isLowerAZ c || isDigit09 c || cp c = 95

/-- Python `str.lstrip()` on the character list. -/
def lstripList (l : List Char) : List Char := l.dropWhile isPySpace

/-- Python `str.rstrip()` on the character list. -/
def rstripList (l : List Char) : List Char := (l.reverse.dropWhile isPySpace).reverse

/-- Python `str.strip()` on the character list. -/
def stripList (l : List Char) : List Char := rstripList (lstripList l)

/-- Python `str.strip()`. -/
def pyStrip (s : String) : String := String.mk (stripList s.toList)

/-- Python `s.startswith(p)`. -/
def pyStartswith (s p : String) : Bool := p.toList.isPrefixOf s.toList

/-- Python `s.endswith(p)`. -/
def pyEndswith (s p : String) : Bool := p.toList.isSuffixOf s.toList

/-- Worker for `pySplitlines`: Python `str.splitlines()` recognising
`\n`, `\r` and `\r\n` line ends; a terminal line break yields no empty
final line. -/
def splitlinesGo : List Char → List Char → List String
  | [], acc => [String.mk acc.reverse]
  | '\r' :: '\n' :: rest, acc =>
      String.mk acc.reverse :: (match rest with | [] => [] | _ :: _ => splitlinesGo rest [])
  | '\r' :: rest, acc =>
      String.mk acc.reverse :: (match rest with | [] => [] | _ :: _ => splitlinesGo rest [])
  | '\n' :: rest, acc =>
      String.mk acc.reverse :: (match rest with | [] => [] | _ :: _ => splitlinesGo rest [])
  | c :: rest, acc => splitlinesGo rest (c :: acc)

/-- Python `str.splitlines()` (empty string gives no lines). -/
def pySplitlines (s : String) : List String :=
  match s.toList with
  | [] => []
  | l => splitlinesGo l []

/-- Worker for `pySplitWs`. -/
def splitWsGo : List Char → List Char → List (List Char)
  | [], cur => if cur.isEmpty then [] else [cur.reverse]
  | c :: rest, cur =>
      if isPySpace c then
        if cur.isEmpty then splitWsGo rest [] else cur.reverse :: splitWsGo rest []
      else splitWsGo rest (c :: cur)

/-- Python `str.split()` with no separator: split on whitespace runs,
dropping empty tokens. -/
def pySplitWs (s : String) : List String := (splitWsGo s.toList []).map String.mk

/-- Worker for `splitOnChar`. -/
def splitOnCharGo (sep : Char) : List Char → List Char → List (List Char)
  | [], cur => [cur.reverse]
  | c :: rest, cur =>
      if c = sep then cur.reverse :: splitOnCharGo sep rest []
      else splitOnCharGo sep rest (c :: cur)

/-- Python `str.split(sep)` for a one-character separator (keeps empty parts;
`"".split(sep) == [""]`). -/
def splitOnChar (sep : Char) (l : List Char) : List (List Char) :=
  splitOnCharGo sep l []

/-- Index of the first occurrence of `sub` in `l` starting at offset `i`
(Python `str.find`). -/
def findSubAux (sub : List Char) : List Char → Nat → Option Nat
  | [], i => if sub.isEmpty then some i else none
  | l@(_ :: rest), i => if sub.isPrefixOf l then some i else findSubAux sub rest (i + 1)

/-- Python `s.split(sub, 1)[0]`: the part of `l` before the first occurrence
of `sub`, or all of `l` when `sub` does not occur. -/
def takeBeforeSub (sub l : List Char) : List Char :=
  match findSubAux sub l 0 with
  | some i => l.take i
  | none => l

/-- Ordered dictionary update, mirroring Python `dict` assignment: an existing
key keeps its position and gets the new value, a new key is appended. -/
def dictInsert (k : String) (v : α) : List (String × α) → List (String × α)
  | [] => [(k, v)]
  | (k', v') :: rest => if k' = k then (k, v) :: rest else (k', v') :: dictInsert k v rest

/-- Dictionary lookup (`k in d` / `d[k]`). -/
def dictGet (k : String) : List (String × α) → Option α
  | [] => none
  | (k', v) :: rest => if k' = k then some v else dictGet k rest

/-- Sequence a list of optional results; `none` (a diverging or failed
sub-computation) propagates. -/
def seqOpt : List (Option α) → Option (List α)
  | [] => some []
  | none :: _ => none
  | some a :: rest =>
      match seqOpt rest with
      | none => none
      | some as => some (a :: as)

/-- Python truthiness fallback `expr or "Unit"`: `None` and the empty string
are falsy. -/
def pyOrUnit : Option String → String
  | none => "Unit"
  | some e => if e = "" then "Unit" else e

/-- Attempt of the search pattern
`MODULE_NAME:\s*&str\s*=\s*"([^"]+)"` at the current position: the literal
pieces are interleaved with whitespace runs, and the quoted group is the
(non-empty) run of non-quote characters up to the closing quote. -/
def matchModuleNameAt (l : List Char) : Option (List Char) :=
  if "MODULE_NAME:".toList.isPrefixOf l then
    let l1 := (l.drop 12).dropWhile isPySpace
    if "&str".toList.isPrefixOf l1 then
      let l2 := (l1.drop 4).dropWhile isPySpace
      match l2 with
      | '=' :: l3 =>
          match l3.dropWhile isPySpace with
          | '"' :: l4 =>
              let g := l4.takeWhile (fun c => c ≠ '"')
              let r := l4.dropWhile (fun c => c ≠ '"')
              if g.isEmpty then none
              else match r with
                | '"' :: _ => some g
                | _ => none
          | _ => none
      | _ => none
    else none
  else none

/-- Leftmost `re.search` of the module-name pattern. -/
def searchModuleName : List Char → Option (List Char)
  | [] => none
  | l@(_ :: rest) =>
      match matchModuleNameAt l with
      | some g => some g
      | none => searchModuleName rest

/-- `parse_module_name`: search the host file for the quoted module name;
`ValueError("missing MODULE_NAME")` is modelled as an `Except.error`. -/
def parse_module_name (rs_text : String) : Except String String :=
  match searchModuleName rs_text.toList with
  | some g => Except.ok (String.mk g)
  | none => Except.error "missing MODULE_NAME"

/-- The raw-string opening delimiter `pub const SOURCE: &str = r#"`. -/
def sourceMarker : List Char := "pub const SOURCE: &str = r#\x22".toList

/-- `parse_aivi_source`: slice the embedded DSL source out of the host file,
failing when the opening marker or the closing `"#;` is absent. -/
def parse_aivi_source (rs_text : String) : Except String String :=
  let cs := rs_text.toList
  match findSubAux sourceMarker cs 0 with
  | none => Except.error "missing SOURCE marker"
  | some st =>
      let tail := cs.drop (st + sourceMarker.length)
      match findSubAux "\x22#;".toList tail 0 with
      | none => Except.error "missing SOURCE terminator"
      | some e => Except.ok (String.mk (tail.take e))

/-- `split_exports`: every line whose stripped form starts with `export `
contributes its comma-separated, comment-stripped, non-empty tokens in order. -/
def split_exports (aivi_source : String) : List String :=
  (pySplitlines aivi_source).foldl
    (fun out line =>
      let s := pyStrip line
      if pyStartswith s "export " then
        let rest := pyStrip (String.mk (takeBeforeSub "//".toList (s.toList.drop 7)))
        out ++ ((splitOnChar ',' rest.toList).map (fun p => pyStrip (String.mk p))).filter
          (fun nm => nm ≠ "")
      else out)
    []

/-- `is_lower_value`: full match of `^[a-z][A-Za-z0-9_]*$`. -/
def is_lower_value (name : String) : Bool :=
  match name.toList with
  | [] => false
  | c :: cs => isLowerAZ c && cs.all isWordChar

/-- `is_upper_name`: full match of `^[A-Z][A-Za-z0-9_]*$`. -/
def is_upper_name (name : String) : Bool :=
  match name.toList with
  | [] => false
  | c :: cs => isUpperAZ c && cs.all isWordChar

/-- `is_suffix_template`: full match of `^[0-9]+[A-Za-z][A-Za-z0-9_]*$`
(the digit run is maximal since a letter is not a digit). -/
def is_suffix_template (name : String) : Bool :=
  let l := name.toList
  let ds := l.takeWhile isDigit09
  let r := l.dropWhile isDigit09
  !ds.isEmpty &&
    (match r with
     | c :: cs => isLetterAZ c && cs.all isWordChar
     | [] => false)

/-- `re.sub(r"^[0-9]+", "", s)`: strip the leading digit run. -/
def stripLeadingDigits (s : String) : String := String.mk (s.toList.dropWhile isDigit09)

/-- Collapse runs of underscores to one (`re.sub(r"_+", "_", ...)`). -/
def collapseUnders (l : List Char) : List Char :=
  l.foldr (fun c acc => if c = '_' ∧ acc.headD ' ' = '_' then acc else c :: acc) []

/-- `sanitize_segment`: strip, dash→underscore, non-word→underscore, collapse
underscore runs, strip underscores, default `x`, digit-safe `n_` marker. -/
def sanitize_segment (seg : String) : String :=
  let l0 := stripList seg.toList
  let l1 := l0.map (fun c => if c = '-' then '_' else c)
  let l2 := l1.map (fun c => if isWordChar c then c else '_')
  let l3 := collapseUnders l2
  let l4 := (l3.dropWhile (fun c => c = '_'))
  let l5 := (l4.reverse.dropWhile (fun c => c = '_')).reverse
  if l5.isEmpty then "x"
  else if isDigit09 (l5.headD 'x') then String.mk ('n' :: '_' :: l5)
  else String.mk l5

/-- `module_segments`: split the dotted module name and sanitise each piece. -/
def module_segments (module_name : String) : List String :=
  (splitOnChar '.' module_name.toList).map (fun s => sanitize_segment (String.mk s))

/-- Match of `^\s*([A-Z][A-Za-z0-9_]*)\b.*=` against a line
(`parse_type_defs`): after the maximal word run starting with an uppercase
letter, the rest of the line must contain `=`. -/
def matchTypeLine (line : String) : Option String :=
  let l1 := line.toList.dropWhile isPySpace
  match l1 with
  | [] => none
  | c :: _ =>
      if isUpperAZ c then
        let nm := l1.takeWhile isWordChar
        let r1 := l1.dropWhile isWordChar
        if r1.contains '=' then some (String.mk nm) else none
      else none

/-- `parse_type_defs` (the Python `set` is modelled as the list of matched
names; only membership is ever consumed). -/
def parse_type_defs (aivi_source : String) : List String :=
  (pySplitlines aivi_source).foldl
    (fun out line =>
      match matchTypeLine line with
      | some nm => out ++ [nm]
      | none => out)
    []

/-- Match of the record-field pattern `^([a-z][A-Za-z0-9_]*)\s*:\s*(.+)$`
against an already-stripped item. -/
def matchFieldItem (item : String) : Option (String × String) :=
  match item.toList with
  | [] => none
  | c :: _ =>
      if isLowerAZ c then
        let l := item.toList
        let nm := l.takeWhile isWordChar
        let r1 := l.dropWhile isWordChar
        match r1.dropWhile isPySpace with
        | ':' :: r2 =>
            let r3 := r2.dropWhile isPySpace
            if r3.isEmpty then none else some (String.mk nm, String.mk r3)
        | _ => none
      else none

/-- Match of `^\s*([A-Z][A-Za-z0-9_]*)\b[^=]*=\s*\x7b(.*)\x7d\s*$` against a
line (`parse_record_type_aliases`): the first `=` after the name, then the
opening brace, and the last closing brace followed only by whitespace. -/
def matchRecordLine (line : String) : Option (String × String) :=
  let l1 := line.toList.dropWhile isPySpace
  match l1 with
  | [] => none
  | c :: _ =>
      if isUpperAZ c then
        let nm := l1.takeWhile isWordChar
        let r1 := l1.dropWhile isWordChar
        match r1.dropWhile (fun d => d ≠ '=') with
        | '=' :: r3 =>
            match r3.dropWhile isPySpace with
            | '\x7b' :: r5 =>
                let rev := r5.reverse.dropWhile isPySpace
                match rev with
                | '\x7d' :: rbody => some (String.mk nm, String.mk rbody.reverse)
                | _ => none
            | _ => none
        | _ => none
      else none

/-- Field extraction from a stripped record-brace body: split on every comma,
strip each part, keep those matching the field pattern (later duplicates
overwrite). -/
def fieldEntriesOf (body : String) : List (String × String) :=
  if body = "" then []
  else
    (splitOnChar ',' body.toList).foldl
      (fun fields part =>
        let item := pyStrip (String.mk part)
        if item = "" then fields
        else
          match matchFieldItem item with
          | some (fn, ftext) => dictInsert fn (pyStrip ftext) fields
          | none => fields)
      []

/-- `parse_record_type_aliases`: per-line record shapes collected into an
insertion-ordered dictionary. -/
def parse_record_type_aliases (aivi_source : String) :
    List (String × List (String × String)) :=
  (pySplitlines aivi_source).foldl
    (fun out line =>
      match matchRecordLine line with
      | some (nm, bodyRaw) => dictInsert nm (fieldEntriesOf (pyStrip bodyRaw)) out
      | none => out)
    []

/-- Match of `^\s*class\s+([A-Z][A-Za-z0-9_]*)\b` against a line. -/
def matchClassLine (line : String) : Option String :=
  let l1 := line.toList.dropWhile isPySpace
  if "class".toList.isPrefixOf l1 then
    let l2 := l1.drop 5
    match l2 with
    | c :: _ =>
        if isPySpace c then
          let l3 := l2.dropWhile isPySpace
          match l3 with
          | d :: _ => if isUpperAZ d then some (String.mk (l3.takeWhile isWordChar)) else none
          | [] => none
        else none
    | [] => none
  else none

/-- `parse_class_defs` (set modelled as the list of matched names). -/
def parse_class_defs (aivi_source : String) : List String :=
  (pySplitlines aivi_source).foldl
    (fun out line =>
      match matchClassLine line with
      | some nm => out ++ [nm]
      | none => out)
    []

/-- Continuation of the constructor-line pattern after a candidate `=`:
the source regex is the RAW string `r"^([A-Z][A-Za-z0-9_]*)\\b.*=\\s*(.+)$"`,
in which `\\s*` denotes a LITERAL backslash followed by zero or more letters
`s`; group 2 is the (non-empty) remainder, falling back to a single `s` when
the letter run reaches the end of the line. -/
def ctorEqTail : List Char → Option (List Char)
  | '\\' :: r2 =>
      let r3 := r2.dropWhile (fun d => d = 's')
      if !r3.isEmpty then some r3
      else if !r2.isEmpty then some ['s']
      else none
  | _ => none

/-- Greedy `.*=` of the constructor-line pattern: later `=` positions are
preferred. -/
def ctorTailAux : List Char → Option (List Char)
  | [] => none
  | '=' :: rest =>
      (match ctorTailAux rest with
       | some g => some g
       | none => ctorEqTail rest)
  | _ :: rest => ctorTailAux rest

/-- Match of the (doubly escaped) constructor-declaration pattern
`^([A-Z][A-Za-z0-9_]*)\\b.*=\\s*(.+)$` against a stripped line: after the
maximal word run the pattern demands a LITERAL backslash and the letter `b`
(`\\b` inside a raw string is not a word boundary), then `.*=`, another
literal backslash, a run of `s`, and a non-empty tail (group 2). -/
def matchCtorLine (l : List Char) : Option (List Char) :=
  match l with
  | [] => none
  | c :: _ =>
      if isUpperAZ c then
        match l.dropWhile isWordChar with
        | '\\' :: 'b' :: r2 => ctorTailAux r2
        | _ => none
      else none

/-- First whitespace-delimited tokens of the `|`-alternatives of a
constructor right-hand side, kept when Capitalized. -/
def ctorHeadsOf (rhs : String) : List String :=
  (splitOnChar '|' rhs.toList).foldl
    (fun out part =>
      match pySplitWs (pyStrip (String.mk part)) with
      | [] => out
      | tok :: _ => if is_upper_name tok then out ++ [tok] else out)
    []

/-- `parse_ctor_exports` (set modelled as the list of collected names): lines
that are empty, comments, or lack `|` or `=` are skipped; the rest go through
the constructor-declaration pattern. -/
def parse_ctor_exports (aivi_source : String) : List String :=
  (pySplitlines aivi_source).foldl
    (fun out line =>
      let s := pyStrip line
      if s = "" then out
      else if pyStartswith s "//" then out
      else if !(s.toList.contains '|') || !(s.toList.contains '=') then out
      else
        match matchCtorLine s.toList with
        | some rhs => out ++ ctorHeadsOf (String.mk rhs)
        | none => out)
    []

/-- Worker for `_split_top_level_commas`: depth is adjusted for the current
character first (clamped at zero exactly as `max(0, depth - 1)` does, using
the same bracket classes), then a depth-zero comma closes the current part.
Every non-tail part is appended stripped (even when empty); the stripped tail
is appended only when non-empty. -/
def splitTLCGo : List Char → List Char → Nat → List String
  | [], cur, _ =>
      let tail := pyStrip (String.mk cur.reverse)
      if tail = "" then [] else [tail]
  | ch :: rest, cur, depth =>
      let depth1 :=
        if ch = '(' ∨ ch = '[' ∨ ch = '\x7b' then depth + 1
        else if ch = ')' ∨ ch = ']' ∨ ch = '\x7d' then depth - 1
        else depth
      if ch = ',' ∧ depth1 = 0 then
        pyStrip (String.mk cur.reverse) :: splitTLCGo rest [] 0
      else splitTLCGo rest (ch :: cur) depth1

/-- `_split_top_level_commas`. -/
def _split_top_level_commas (text : String) : List String :=
  splitTLCGo text.toList [] 0

/-- Python `" ".join(ty.strip().split())`: whitespace normalisation. -/
def normalizeWs (s : String) : String :=
  String.intercalate " " (pySplitWs (pyStrip s))

/-- Python `ty[1:-1]`. -/
def stringInner (s : String) : String := String.mk ((s.toList.drop 1).dropLast)

/-- `sample_expr_for_type`, indexed by recursion fuel.  The Python function
has no fuel and simply recurses; `none` here means the call has not finished
within `fuel` nested calls (so `∀ fuel, ... = none` states that the Python
call never returns), while `some r` is the Python result `r : Option String`.
The rule order is the source's: record shape, primitives, `Option `/`List `
prefixes, parenthesised tuples of ≥ 2 top-level components, `Map `/`Set `
prefixes, the `Delta` domain special case, and `None` for everything else. -/
def sample_expr_for_type :
    Nat → String → List (String × List (String × String)) → List String → List String →
    Option (Option String)
  | 0, _, _, _, _ => none
  | Nat.succ n, ty0, record_types, domain_templates, domain_named_literals =>
    let ty := normalizeWs ty0
    match dictGet ty record_types with
    | some fields =>
        (match seqOpt (fields.map (fun fld =>
            sample_expr_for_type n fld.2 record_types domain_templates domain_named_literals)) with
         | none => none
         | some rs =>
             some (some ("\x7b " ++
               String.intercalate ", "
                 ((fields.zip rs).map (fun pr => pr.1.1 ++ ": " ++ pyOrUnit pr.2)) ++ " \x7d")))
    | none =>
      if ty = "Int" then some (some "1")
      else if ty = "Float" then some (some "1.0")
      else if ty = "Bool" then some (some "True")
      else if ty = "Text" then some (some "\x22x\x22")
      else if ty = "Char" then some (some "\x27x\x27")
      else if ty = "Unit" then some (some "Unit")
      else if ty = "Bytes" then some (some "bytes.empty")
      else if pyStartswith ty "Option " then some (some "None")
      else if pyStartswith ty "List " then some (some "[]")
      else
        let items := _split_top_level_commas (pyStrip (stringInner ty))
        if pyStartswith ty "(" && pyEndswith ty ")" && decide (2 ≤ items.length) then
          match seqOpt (items.map (fun it =>
              sample_expr_for_type n it record_types domain_templates domain_named_literals)) with
          | none => none
          | some rs =>
              some (some ("(" ++ String.intercalate ", " (rs.map pyOrUnit) ++ ")"))
        else if pyStartswith ty "Map " then some (some "Map.insert \x22a\x22 1 Map.empty")
        else if pyStartswith ty "Set " then some (some "Set.insert 1 Set.empty")
        else if ty = "Delta" then
          match domain_templates with
          | tpl :: _ => some (some ("2" ++ stripLeadingDigits tpl))
          | [] =>
              match domain_named_literals with
              | lit :: _ => some (some lit)
              | [] => some none
        else some none

/-- Output root `OUT = ROOT / "integration-tests" / "stdlib"`, modelled
relative to the repository root. -/
def OUT : String := "integration-tests/stdlib"

/-- An output path `OUT / seg_1 / ... / seg_k / fname`. -/
def out_path_for (segs : List String) (fname : String) : String :=
  OUT ++ "/" ++ String.intercalate "/" segs ++ "/" ++ fname

/-- `header`. -/
def header (module_name : String) : String :=
  "@no_prelude\nmodule " ++ module_name ++ "\n"

/-- `use_select`. -/
def use_select (m item : String) : String := "use " ++ m ++ " (" ++ item ++ ")\n"

/-- `use_all`. -/
def use_all (m : String) : String := "use " ++ m ++ "\n"

/-- `use_testlib`. -/
def use_testlib : String := "use aivi.testing (assert)\n"

/-- The `@test` block that evaluates `subject` and asserts success. -/
def smokeSubjectBlock : String :=
  "\n@test\nsmoke = effect \x7b\n  _ <- pure subject\n  _ <- assert True\n\x7d\n"

/-- The `@test` block that only asserts success (type-reference smoke). -/
def smokeTrivialBlock : String :=
  "\n@test\nsmoke = effect \x7b\n  _ <- assert True\n\x7d\n"

/-- `basic_export_test`: the single write this call performs, as
`some (path, content)`, or `none` for the early return on a `domain ` export.
The string is assembled exactly as the Python `body += ...` chain does
(string append is associative, so the grouping is immaterial). -/
def basic_export_test (mod export_name : String) (type_defs : List String)
    (record_types : List (String × List (String × String)))
    (ctor_exports : List String) : Option (String × String) :=
  let mod_segs := module_segments mod
  let case := sanitize_segment export_name
  let test_module := String.intercalate "." (["integrationTests", "stdlib"] ++ mod_segs ++ [case])
  let out_path := out_path_for mod_segs (case ++ ".aivi")
  let body0 := header test_module ++ "\nuse aivi\n" ++ use_testlib ++ "\n" ++ use_all mod
  if pyStartswith export_name "domain " then none
  else if is_upper_name export_name then
    (if ctor_exports.contains export_name then
      some (out_path, body0 ++ ("\nsubject = " ++ export_name ++ "\n") ++ smokeSubjectBlock)
    else
      some (out_path, body0 ++ ("\nRef = " ++ export_name ++ "\n") ++ smokeTrivialBlock))
  else
    let subject_expr :=
      if is_suffix_template export_name then
        (if stripLeadingDigits export_name = "dec" then "3.14" else "2") ++
          stripLeadingDigits export_name
      else export_name
    some (out_path, body0 ++ ("\nsubject = " ++ subject_expr ++ "\n") ++ smokeSubjectBlock)

/-- `DomainDef`. -/
structure DomainDef where
  name : String
  carrier : String
  operators : List (String × String)
  templates : List String
  named_literals : List String
deriving DecidableEq, Repr

/-- Tail test for the lazy carrier group of the domain-header pattern:
does the remainder match `\s*=\s*\x7b\s*$`? -/
def domTail (l : List Char) : Bool :=
  match l.dropWhile isPySpace with
  | '=' :: r =>
      (match r.dropWhile isPySpace with
       | '\x7b' :: r2 => (r2.dropWhile isPySpace).isEmpty
       | _ => false)
  | _ => false

/-- Lazy `(.+?)` of the domain-header pattern: the shortest non-empty prefix
whose remainder satisfies `domTail`. -/
def domCarrierGo (acc : List Char) : List Char → Option (List Char)
  | [] => none
  | c :: rest =>
      if domTail rest then some (c :: acc).reverse else domCarrierGo (c :: acc) rest

/-- Match of the domain-header pattern
`^\s*domain\s+([A-Za-z][A-Za-z0-9_]*)\s+over\s+(.+?)\s*=\s*\x7b\s*$`
against a line; returns the name and the raw carrier group. -/
def matchDomainHead (line : String) : Option (String × String) :=
  let l1 := line.toList.dropWhile isPySpace
  if "domain".toList.isPrefixOf l1 then
    let l2 := l1.drop 6
    match l2 with
    | c :: _ =>
        if isPySpace c then
          let l3 := l2.dropWhile isPySpace
          match l3 with
          | d :: _ =>
              if isLetterAZ d then
                let nm := l3.takeWhile isWordChar
                let l4 := l3.dropWhile isWordChar
                match l4 with
                | e :: _ =>
                    if isPySpace e then
                      let l5 := l4.dropWhile isPySpace
                      if "over".toList.isPrefixOf l5 then
                        let l6 := l5.drop 4
                        match l6 with
                        | f :: _ =>
                            if isPySpace f then
                              let l7 := l6.dropWhile isPySpace
                              match domCarrierGo [] l7 with
                              | some car => some (String.mk nm, String.mk car)
                              | none => none
                            else none
                        | [] => none
                      else none
                    else none
                | [] => none
              else none
          | [] => none
        else none
    | [] => none
  else none

/-- Match of the operator pattern `^\s*\(([^)]+)\)\s*:\s*(.+?)\s*$`; both
groups are returned stripped, exactly as `parse_domain_defs` consumes them. -/
def matchOpLine (line : String) : Option (String × String) :=
  match line.toList.dropWhile isPySpace with
  | '(' :: r =>
      let inner := r.takeWhile (fun d => d ≠ ')')
      if inner.isEmpty then none
      else
        match r.dropWhile (fun d => d ≠ ')') with
        | ')' :: r2 =>
            (match r2.dropWhile isPySpace with
             | ':' :: r3 =>
                 if r3.isEmpty then none
                 else some (pyStrip (String.mk inner), pyStrip (String.mk r3))
             | _ => none)
        | _ => none
  | _ => none

/-- Match of the suffix-template pattern
`^\s*([0-9]+[A-Za-z][A-Za-z0-9_]*)\s*=\s*.+$`. -/
def matchTplLine (line : String) : Option String :=
  let l1 := line.toList.dropWhile isPySpace
  let ds := l1.takeWhile isDigit09
  if ds.isEmpty then none
  else
    let l2 := l1.dropWhile isDigit09
    match l2 with
    | c :: _ =>
        if isLetterAZ c then
          let run := l2.takeWhile isWordChar
          let l3 := l2.dropWhile isWordChar
          match l3.dropWhile isPySpace with
          | '=' :: l5 => if l5.isEmpty then none else some (String.mk (ds ++ run))
          | _ => none
        else none
    | [] => none

/-- Match of the named-literal pattern
`^\s*([a-z][A-Za-z0-9_]*)\s*=\s*([A-Z][A-Za-z0-9_]*)\b.*$`. -/
def matchNamedLine (line : String) : Option String :=
  let l1 := line.toList.dropWhile isPySpace
  match l1 with
  | c :: _ =>
      if isLowerAZ c then
        let nm := l1.takeWhile isWordChar
        let l2 := l1.dropWhile isWordChar
        match l2.dropWhile isPySpace with
        | '=' :: l4 =>
            (match l4.dropWhile isPySpace with
             | d :: _ => if isUpperAZ d then some (String.mk nm) else none
             | [] => none)
        | _ => none
      else none
  | [] => none

/-- `cur.count("\x7b") - cur.count("\x7d")` as an integer. -/
def braceDelta (line : String) : Int :=
  (line.toList.countP (fun c => c = '\x7b') : Int) -
    (line.toList.countP (fun c => c = '\x7d') : Int)

/-- The inner `while` of `parse_domain_defs`: consume lines while the brace
count stays positive, returning the block (lines seen while the count is
still positive after the line's braces) and the remaining lines. -/
def scanBlock (brace : Int) : List String → List String × List String
  | [] => ([], [])
  | cur :: rest =>
      if brace ≤ 0 then ([], cur :: rest)
      else
        let b' := brace + braceDelta cur
        if 0 < b' then
          let r := scanBlock b' rest
          (cur :: r.1, r.2)
        else ([], rest)

/-- Classify the lines of a domain block into operators, suffix templates
and named literals, in order, trying the three patterns in the source's
order. -/
def mkDomain (name carrier : String) (block : List String) : DomainDef :=
  let r := block.foldl
    (fun (acc : List (String × String) × List String × List String) bline =>
      match matchOpLine bline with
      | some op => (acc.1 ++ [op], acc.2.1, acc.2.2)
      | none =>
          match matchTplLine bline with
          | some t => (acc.1, acc.2.1 ++ [t], acc.2.2)
          | none =>
              match matchNamedLine bline with
              | some nl => (acc.1, acc.2.1, acc.2.2 ++ [nl])
              | none => acc)
    ([], [], [])
  ⟨name, carrier, r.1, r.2.1, r.2.2⟩

/-- Upper bound used for the termination of the outer scan. -/
theorem scanBlock_snd_length (brace : Int) (l : List String) :
    (scanBlock brace l).2.length ≤ l.length := by
  induction l generalizing brace with
  | nil => simp [scanBlock]
  | cons cur rest ih =>
      simp only [scanBlock]
      split
      · simp
      · split
        · simpa using Nat.le_succ_of_le (ih _)
        · simp

/-- The outer `while` of `parse_domain_defs` over the line list, bounded by
the number of unread lines (every step consumes at least one line, so the
bound is never reached; see `parseDomainLinesGo_fuel`). -/
def parseDomainLinesGo : Nat → List String → List DomainDef
  | 0, _ => []
  | _, [] => []
  | fuel + 1, line :: rest =>
      match matchDomainHead line with
      | none => parseDomainLinesGo fuel rest
      | some (nm, car) =>
          let br := scanBlock 1 rest
          mkDomain nm (pyStrip car) br.1 :: parseDomainLinesGo fuel br.2

/-- `parseDomainLinesGo` on the empty line list. -/
theorem parseDomainLinesGo_nil (f : Nat) : parseDomainLinesGo f [] = [] := by
  cases f <;> rfl

/-- The line-count bound of `parseDomainLinesGo` is slack: any two fuels of
at least the list length give the same scan, i.e. the loop always terminates
on its own by exhausting the input, never by the bound. -/
theorem parseDomainLinesGo_fuel :
    ∀ f1 f2 (l : List String), l.length ≤ f1 → l.length ≤ f2 →
      parseDomainLinesGo f1 l = parseDomainLinesGo f2 l := by
  intro f1
  induction f1 with
  | zero =>
      intro f2 l h1 _
      have hl : l = [] := List.eq_nil_of_length_eq_zero (Nat.le_zero.mp h1)
      subst hl
      rw [parseDomainLinesGo_nil, parseDomainLinesGo_nil]
  | succ a ih =>
      intro f2 l h1 h2
      cases l with
      | nil => rw [parseDomainLinesGo_nil, parseDomainLinesGo_nil]
      | cons line rest =>
          cases f2 with
          | zero => simp at h2
          | succ b =>
              simp only [parseDomainLinesGo]
              cases hm : matchDomainHead line with
              | none => exact ih b rest (by simpa using h1) (by simpa using h2)
              | some pr =>
                  obtain ⟨nm, car⟩ := pr
                  have hs := scanBlock_snd_length 1 rest
                  rw [ih b _ (le_trans hs (by simpa using h1)) (le_trans hs (by simpa using h2))]

/-- `parse_domain_defs`. -/
def parse_domain_defs (aivi_source : String) : List DomainDef :=
  parseDomainLinesGo (pySplitlines aivi_source).length (pySplitlines aivi_source)

/-- The write performed for one suffix template of a domain
(`domain_tests`, first loop body). -/
def domTplWrite (mod : String) (domain : DomainDef) (tpl : String) : String × String :=
  let mod_segs := module_segments mod
  let dom_segs := mod_segs ++ ["domain_" ++ sanitize_segment domain.name]
  let suffix := stripLeadingDigits tpl
  let case := "suffix_" ++ sanitize_segment suffix
  let test_module := String.intercalate "." (["integrationTests", "stdlib"] ++ dom_segs ++ [case])
  let out_path := out_path_for dom_segs (case ++ ".aivi")
  let literal_base := if suffix = "dec" then "3.14" else "2"
  let body := header test_module ++ "\nuse aivi\n" ++ use_testlib ++ "\n" ++ use_all mod ++
    "\n" ++ use_select mod ("domain " ++ domain.name) ++
    ("\nsubject = " ++ literal_base ++ suffix ++ "\n") ++ smokeSubjectBlock
  (out_path, body)

/-- The write performed for one named literal of a domain
(`domain_tests`, second loop body). -/
def domLitWrite (mod : String) (domain : DomainDef) (lit : String) : String × String :=
  let mod_segs := module_segments mod
  let dom_segs := mod_segs ++ ["domain_" ++ sanitize_segment domain.name]
  let case := "literal_" ++ sanitize_segment lit
  let test_module := String.intercalate "." (["integrationTests", "stdlib"] ++ dom_segs ++ [case])
  let out_path := out_path_for dom_segs (case ++ ".aivi")
  let body := header test_module ++ "\nuse aivi\n" ++ use_testlib ++ "\n" ++ use_all mod ++
    "\n" ++ use_select mod ("domain " ++ domain.name) ++
    ("\nsubject = " ++ lit ++ "\n") ++ smokeSubjectBlock
  (out_path, body)

/-- `domain_tests`: the ordered writes for one domain (the `aivi_src`
argument is accepted, and ignored, exactly as in the source). -/
def domain_tests (mod aivi_src : String) (domain : DomainDef) : List (String × String) :=
  domain.templates.map (domTplWrite mod domain) ++
    domain.named_literals.map (domLitWrite mod domain)

/-- The per-file body of `main` after successful extraction: the ordered
writes and the number of counted exports. -/
def processSrc (mod aivi_src : String) : List (String × String) × Nat :=
  let type_defs := parse_type_defs aivi_src
  let record_types := parse_record_type_aliases aivi_src
  let class_defs := parse_class_defs aivi_src
  let ctor_exports := parse_ctor_exports aivi_src
  let exps := (split_exports aivi_src).filter
    (fun e => !pyStartswith e "domain " && !class_defs.contains e)
  let ew := exps.filterMap (fun e => basic_export_test mod e type_defs record_types ctor_exports)
  let dw := (parse_domain_defs aivi_src).flatMap (fun d => domain_tests mod aivi_src d)
  (ew ++ dw, exps.length)

/-- One input file through extraction and generation; a structural failure
is the `ValueError` the run dies with. -/
def processRs (rs_text : String) : Except String (List (String × String) × Nat) :=
  match parse_module_name rs_text with
  | Except.error e => Except.error e
  | Except.ok mod =>
      match parse_aivi_source rs_text with
      | Except.error e => Except.error e
      | Except.ok src => Except.ok (processSrc mod src)

/-- The driver loop of `main` over the (already sorted) file list: the
writes performed so far are kept even when a later file aborts the run. -/
def runFiles : List (String × String) → List (String × String) × Except String Nat
  | [] => ([], Except.ok 0)
  | f :: rest =>
      match processRs f.2 with
      | Except.error e => ([], Except.error e)
      | Except.ok (ws, n) =>
          let r := runFiles rest
          (ws ++ r.1,
           match r.2 with
           | Except.ok m => Except.ok (n + m)
           | Except.error e => Except.error e)

/-- Code-point lexicographic order on character lists: this is the order in
which Python's `sorted` ranks the (same-directory) paths. -/
def charListLe : List Char → List Char → Bool
  | [], _ => true
  | _ :: _, [] => false
  | a :: as, b :: bs =>
      if cp a < cp b then true
      else if cp a = cp b then charListLe as bs
      else false

theorem charListLe_refl : ∀ x, charListLe x x = true := by
  intro x
  induction x with
  | nil => rfl
  | cons a as ih => simp [charListLe, ih]

theorem charListLe_total : ∀ x y, charListLe x y = true ∨ charListLe y x = true := by
  intro x
  induction x with
  | nil => intro y; exact Or.inl rfl
  | cons a as ih =>
      intro y
      cases y with
      | nil => exact Or.inr rfl
      | cons b bs =>
          rcases Nat.lt_trichotomy (cp a) (cp b) with h | h | h
          · left; simp [charListLe, h]
          · rcases ih bs with h2 | h2
            · left; simp [charListLe, h, h2]
            · right; simp [charListLe, h.symm, h2]
          · right; simp [charListLe, h]

theorem charListLe_trans :
    ∀ x y z, charListLe x y = true → charListLe y z = true → charListLe x z = true := by
  intro x
  induction x with
  | nil => intro y z _ _; rfl
  | cons a as ih =>
      intro y z h1 h2
      cases y with
      | nil => simp [charListLe] at h1
      | cons b bs =>
          cases z with
          | nil => simp [charListLe] at h2
          | cons c cs =>
              simp only [charListLe] at h1 h2 ⊢
              split_ifs at h1 h2 ⊢ <;>
                first
                  | rfl
                  | omega
                  | (exact ih bs cs h1 h2)
                  | simp_all

/-- Characters with the same code point are equal. -/
theorem cp_inj {a b : Char} (h : cp a = cp b) : a = b := by
  have h' : a.toNat = b.toNat := h
  have := congrArg Char.ofNat h'
  rwa [Char.ofNat_toNat, Char.ofNat_toNat] at this

theorem charListLe_antisymm :
    ∀ x y, charListLe x y = true → charListLe y x = true → x = y := by
  intro x
  induction x with
  | nil =>
      intro y _ h2
      cases y with
      | nil => rfl
      | cons b bs => simp [charListLe] at h2
  | cons a as ih =>
      intro y h1 h2
      cases y with
      | nil => simp [charListLe] at h1
      | cons b bs =>
          simp only [charListLe] at h1 h2
          split_ifs at h1 h2 <;> try omega
          · have hab : a = b := cp_inj (by omega)
            have : as = bs := ih bs (by assumption) (by assumption)
            rw [hab, this]

/-- Name order used by `sorted(STDLIB_SRC.glob("*.rs"))`. -/
def nameLe (a b : String × String) : Prop := charListLe a.1.toList b.1.toList = true

instance : DecidableRel nameLe := fun a b =>
  inferInstanceAs (Decidable (charListLe a.1.toList b.1.toList = true))

instance : IsTotal (String × String) nameLe :=
  ⟨fun a b => charListLe_total a.1.toList b.1.toList⟩

instance : IsTrans (String × String) nameLe :=
  ⟨fun _ _ _ h1 h2 => charListLe_trans _ _ _ h1 h2⟩

/-- Antisymmetry of `nameLe` at the level of file names. -/
theorem nameLe_antisymm {a b : String × String} (h1 : nameLe a b) (h2 : nameLe b a) :
    a.1 = b.1 := by
  have h : a.1.toList = b.1.toList := charListLe_antisymm _ _ h1 h2
  exact String.ext h

/-- `main`'s file selection: `*.rs` files except `mod.rs`, in sorted order
(the input list models the unspecified directory-iteration order). -/
def sortFiles (files : List (String × String)) : List (String × String) :=
  List.insertionSort nameLe
    (files.filter (fun f => pyEndswith f.1 ".rs" && !(f.1 = "mod.rs" : Bool)))

/-- `main`: writes performed, and either the final count or the fatal error. -/
def mainRun (files : List (String × String)) : List (String × String) × Except String Nat :=
  runFiles (sortFiles files)

/-- The single line printed on success (`None` when the run aborts). -/
def mainStdout (files : List (String × String)) : Option String :=
  match (mainRun files).2 with
  | Except.ok n => some ("generated " ++ toString n ++ " export tests under " ++ OUT)
  | Except.error _ => none

/-- Replaying a list of writes over a directory tree (`write` always
overwrites and creates directories as needed, so a tree is just a map from
path to content). -/
def applyWrites (ws : List (String × String)) (tree : String → Option String) :
    String → Option String :=
  ws.foldl (fun acc w => fun q => if q = w.1 then some w.2 else acc q) tree

/-! ## Concrete inputs used by the claims -/

/-- An ADT declaration in the shape the constructor scanner documents, with
its type and one of its constructors exported. -/
def columnTypeSource : String :=
  "ColumnType = IntType | BoolType | Varchar Int\nexport ColumnType, IntType"

/-! ## Claim theorems -/

/-- C1: for the ADT `ColumnType = IntType | BoolType | Varchar Int` the
constructor scanner produces the EMPTY set (its raw-string pattern demands a
literal backslash after the type name), so exporting `IntType` emits the
type-reference smoke test `Ref = IntType`, not the claimed constructor test
`subject = IntType`; the final conjunct shows that with the constructor set
the scanner's documentation describes, the constructor test would be
emitted. -/
theorem c1_ctor_scan_never_matches :
    parse_ctor_exports columnTypeSource = [] ∧
    split_exports columnTypeSource = ["ColumnType", "IntType"] ∧
    basic_export_test "aivi.db" "IntType" (parse_type_defs columnTypeSource)
        (parse_record_type_aliases columnTypeSource) (parse_ctor_exports columnTypeSource) =
      some ("integration-tests/stdlib/aivi/db/IntType.aivi",
        "@no_prelude\nmodule integrationTests.stdlib.aivi.db.IntType\n\nuse aivi\nuse aivi.testing (assert)\n\nuse aivi.db\n\nRef = IntType\n\n@test\nsmoke = effect \x7b\n  _ <- assert True\n\x7d\n") ∧
    basic_export_test "aivi.db" "IntType" (parse_type_defs columnTypeSource)
        (parse_record_type_aliases columnTypeSource) ["IntType", "BoolType", "Varchar"] =
      some ("integration-tests/stdlib/aivi/db/IntType.aivi",
        "@no_prelude\nmodule integrationTests.stdlib.aivi.db.IntType\n\nuse aivi\nuse aivi.testing (assert)\n\nuse aivi.db\n\nsubject = IntType\n\n@test\nsmoke = effect \x7b\n  _ <- pure subject\n  _ <- assert True\n\x7d\n") := by
  refine ⟨by decide, by decide, by decide, by decide⟩

/-- C3: the synthesizer is NOT total: on a record shape whose field type is
the record itself (`R = \x7b x: R \x7d`), the call never returns — at every
finite recursion depth the fuel-indexed evaluation is still unfinished, so
the Python original recurses forever (a `RecursionError`), contradicting the
claimed totality. -/
theorem c3_synthesizer_diverges_on_self_referential_record :
    ∀ fuel, sample_expr_for_type fuel "R" [("R", [("x", "R")])] [] [] = none := by
  intro fuel
  induction fuel with
  | zero => rfl
  | succ n ih =>
      have step : sample_expr_for_type (n + 1) "R" [("R", [("x", "R")])] [] [] =
          match seqOpt [sample_expr_for_type n "R" [("R", [("x", "R")])] [] []] with
          | none => none
          | some rs =>
              some (some ("\x7b " ++
                String.intercalate ", "
                  (([("x", "R")].zip rs).map (fun pr => pr.1.1 ++ ": " ++ pyOrUnit pr.2)) ++
                " \x7d")) := rfl
      rw [step, ih]
      rfl

/-- C5: `_split_top_level_commas` splits only at bracket-depth-zero commas,
`(Int, Text)` synthesizes to the two-component tuple literal `(1, "x")`, and
`(Int, (Bool, Text))` recurses into the nested tuple, giving
`(1, (True, "x"))`. -/
theorem c5_tuple_splitting :
    _split_top_level_commas "Int, (Bool, Text)" = ["Int", "(Bool, Text)"] ∧
    sample_expr_for_type 3 "(Int, Text)" [] [] [] = some (some "(1, \x22x\x22)") ∧
    sample_expr_for_type 3 "(Int, (Bool, Text))" [] [] [] =
      some (some "(1, (True, \x22x\x22))") := by
  refine ⟨by decide, by decide, by decide⟩

/-- C7: synthesizing the exact type `Delta` (when no record shape shadows
that name) prefers the first suffix template with its leading digits
stripped and a literal `2` prepended; with no templates it falls back to the
first named literal; with neither it returns `None`. -/
theorem c7_delta_synthesis (record_types : List (String × List (String × String)))
    (tpls lits : List String) (n : Nat)
    (h : dictGet "Delta" record_types = none) :
    (∀ t ts, tpls = t :: ts →
      sample_expr_for_type (n + 1) "Delta" record_types tpls lits =
        some (some ("2" ++ stripLeadingDigits t))) ∧
    (tpls = [] → ∀ l ls, lits = l :: ls →
      sample_expr_for_type (n + 1) "Delta" record_types tpls lits = some (some l)) ∧
    (tpls = [] → lits = [] →
      sample_expr_for_type (n + 1) "Delta" record_types tpls lits = some none) := by
  have key : sample_expr_for_type (n + 1) "Delta" record_types tpls lits =
      match tpls with
      | tpl :: _ => some (some ("2" ++ stripLeadingDigits tpl))
      | [] =>
          match lits with
          | lit :: _ => some (some lit)
          | [] => some none := by
    simp only [sample_expr_for_type]
    have hn : normalizeWs "Delta" = "Delta" := rfl
    rw [hn, h]
    rfl
  refine ⟨?_, ?_, ?_⟩
  · intro t ts ht; subst ht; rw [key]
  · intro ht l ls hl; subst ht; subst hl; rw [key]
  · intro ht hl; subst ht; subst hl; rw [key]

/-- Witness for C7 at concrete inputs: template `1ms` gives `2ms`, a lone
named literal `eom` gives `eom`, and an empty domain gives `None`. -/
theorem c7_delta_synthesis_witness :
    sample_expr_for_type 1 "Delta" [] ["1ms"] [] = some (some "2ms") ∧
    sample_expr_for_type 1 "Delta" [] [] ["eom"] = some (some "eom") ∧
    sample_expr_for_type 1 "Delta" [] [] [] = some none := by
  refine ⟨?_, ?_, ?_⟩
  · exact (c7_delta_synthesis [] ["1ms"] [] 0 rfl).1 "1ms" [] rfl
  · exact (c7_delta_synthesis [] [] ["eom"] 0 rfl).2.1 rfl "eom" [] rfl
  · exact (c7_delta_synthesis [] [] [] 0 rfl).2.2 rfl rfl

/-- A single-line record whose first field type contains a bracketed comma. -/
def nestedRecordLine : String := "P = \x7b a: (Int, Text), b: Bool \x7d"

/-- C4 counterexample: the record scanner splits the brace body on EVERY
comma, not on top-level commas only — for `P = \x7b a: (Int, Text), b: Bool \x7d`
the recorded field type of `a` is the fragment `(Int`, not `(Int, Text)` as a
top-level split (second conjunct) would give, and synthesizing `P`
consequently yields `a: Unit` instead of the recursive synthesis
`a: (1, "x")` of the declared field type. -/
theorem c4_counterexample :
    parse_record_type_aliases nestedRecordLine = [("P", [("a", "(Int"), ("b", "Bool")])] ∧
    _split_top_level_commas "a: (Int, Text), b: Bool" = ["a: (Int, Text)", "b: Bool"] ∧
    dictGet "P" (parse_record_type_aliases nestedRecordLine) ≠
      some [("a", "(Int, Text)"), ("b", "Bool")] ∧
    sample_expr_for_type 3 "P" (parse_record_type_aliases nestedRecordLine) [] [] =
      some (some "\x7b a: Unit, b: True \x7d") ∧
    sample_expr_for_type 3 "(Int, Text)" (parse_record_type_aliases nestedRecordLine) [] [] =
      some (some "(1, \x22x\x22)") := by
  refine ⟨by decide, by decide, by decide, by decide, by decide⟩

/-- Sequencing a list of calls that all succeed. -/
theorem seqOpt_of_forall₂ {α β : Type} {f : α → Option β} {l : List α} {rs : List β}
    (h : List.Forall₂ (fun a b => f a = some b) l rs) : seqOpt (l.map f) = some rs := by
  induction h with
  | nil => rfl
  | cons h1 _ ih => simp [seqOpt, h1, ih]

/-- C4 (amended): for a record name in the environment (the environment the
all-comma split actually records), synthesis emits a brace literal with
exactly the recorded fields in recorded order, each value the recursive
synthesis of its recorded field type or the `Unit` placeholder. -/
theorem c4_record_roundtrip (record_types : List (String × List (String × String)))
    (name : String) (fields : List (String × String)) (tpls lits : List String)
    (n : Nat) (rs : List (Option String))
    (h1 : normalizeWs name = name)
    (h2 : dictGet name record_types = some fields)
    (h3 : List.Forall₂
      (fun fld r => sample_expr_for_type n fld.2 record_types tpls lits = some r) fields rs) :
    sample_expr_for_type (n + 1) name record_types tpls lits =
      some (some ("\x7b " ++
        String.intercalate ", "
          ((fields.zip rs).map (fun pr => pr.1.1 ++ ": " ++ pyOrUnit pr.2)) ++ " \x7d")) := by
  have hseq :
      seqOpt (fields.map (fun fld => sample_expr_for_type n fld.2 record_types tpls lits)) =
        some rs := seqOpt_of_forall₂ h3
  simp only [sample_expr_for_type, h1, h2, hseq]

/-- Witness for C4 (amended) at a concrete two-field record. -/
theorem c4_record_roundtrip_witness :
    sample_expr_for_type 2 "P" [("P", [("a", "Int"), ("b", "Text")])] [] [] =
      some (some "\x7b a: 1, b: \x22x\x22 \x7d") := by
  have h := c4_record_roundtrip [("P", [("a", "Int"), ("b", "Text")])] "P"
    [("a", "Int"), ("b", "Text")] [] [] 1 [some "1", some "\x22x\x22"] rfl rfl
    (List.Forall₂.cons (by decide) (List.Forall₂.cons (by decide) List.Forall₂.nil))
  exact h

/-- A digit-prefixed suffix export starts with a digit. -/
theorem suffix_template_head_digit (e : String) (h : is_suffix_template e = true) :
    ∃ c cs, e.toList = c :: cs ∧ isDigit09 c = true := by
  simp only [is_suffix_template, Bool.and_eq_true] at h
  obtain ⟨h1, _⟩ := h
  cases hl : e.toList with
  | nil => rw [hl] at h1; simp at h1
  | cons c cs =>
      rw [hl] at h1
      cases hd : isDigit09 c with
      | true => exact ⟨c, cs, rfl, hd⟩
      | false => rw [List.takeWhile_cons, hd] at h1; simp at h1

/-- A digit-prefixed suffix export is neither an uppercase name nor a
`domain `-prefixed export. -/
theorem suffix_template_shape (e : String) (h : is_suffix_template e = true) :
    is_upper_name e = false ∧ pyStartswith e "domain " = false := by
  obtain ⟨c, cs, hl, hd⟩ := suffix_template_head_digit e h
  simp only [isDigit09, Bool.and_eq_true, decide_eq_true_eq] at hd
  constructor
  · simp only [is_upper_name, hl]
    have : isUpperAZ c = false := by
      simp only [isUpperAZ, Bool.and_eq_false_iff, decide_eq_false_iff_not]
      left; omega
    simp [this]
  · simp only [pyStartswith, hl]
    have hdc : "domain ".toList = 'd' :: "omain ".toList := rfl
    rw [hdc]
    simp only [List.isPrefixOf, Bool.and_eq_false_iff]
    left
    simp only [beq_eq_false_iff_ne, ne_eq]
    intro heq
    rw [← heq] at hd
    simp [cp] at hd

/-- C8: for every suffix template of a domain the emitted test binds
`subject` to the base magnitude (`3.14` for the decimal suffix `dec`, else
`2`) concatenated with the digit-stripped suffix, and the write is among the
domain's emitted tests; likewise every digit-prefixed suffix export gets a
plain-export test whose `subject` is built the same way. -/
theorem c8_suffix_literal_selection :
    (∀ mod asrc (d : DomainDef) tpl, tpl ∈ d.templates →
      domTplWrite mod d tpl ∈ domain_tests mod asrc d ∧
      ∃ pre post, (domTplWrite mod d tpl).2 =
        pre ++ ("\nsubject = " ++ (if stripLeadingDigits tpl = "dec" then "3.14" else "2") ++
          stripLeadingDigits tpl ++ "\n") ++ post) ∧
    (∀ mod e (td : List String) (rt : List (String × List (String × String)))
        (cs : List String), is_suffix_template e = true →
      ∃ p pre post, basic_export_test mod e td rt cs = some (p,
        pre ++ ("\nsubject = " ++ ((if stripLeadingDigits e = "dec" then "3.14" else "2") ++
          stripLeadingDigits e) ++ "\n") ++ post)) := by
  constructor
  · intro mod asrc d tpl htpl
    constructor
    · exact List.mem_append_left _ (List.mem_map_of_mem _ htpl)
    · exact ⟨_, _, rfl⟩
  · intro mod e td rt cs h
    obtain ⟨hup, hdom⟩ := suffix_template_shape e h
    simp only [basic_export_test, hdom, hup, h, Bool.false_eq_true, if_false, if_true,
      reduceIte]
    exact ⟨_, _, _, rfl⟩

/-- Witness for C8: the domain template `1ms` yields a suffix test whose
subject is `2ms`, and the plain export `1ms` likewise binds `subject = 2ms`. -/
theorem c8_suffix_literal_selection_witness :
    (domTplWrite "aivi.time" ⟨"Duration", "Int", [], ["1ms"], []⟩ "1ms" ∈
        domain_tests "aivi.time" "src" ⟨"Duration", "Int", [], ["1ms"], []⟩ ∧
      ∃ pre post,
        (domTplWrite "aivi.time" ⟨"Duration", "Int", [], ["1ms"], []⟩ "1ms").2 =
          pre ++ ("\nsubject = " ++
            (if stripLeadingDigits "1ms" = "dec" then "3.14" else "2") ++
            stripLeadingDigits "1ms" ++ "\n") ++ post) ∧
    (∃ p pre post, basic_export_test "aivi.time" "1ms" [] [] [] = some (p,
      pre ++ ("\nsubject = " ++ ((if stripLeadingDigits "1ms" = "dec" then "3.14" else "2") ++
        stripLeadingDigits "1ms") ++ "\n") ++ post)) :=
  ⟨c8_suffix_literal_selection.1 "aivi.time" "src" ⟨"Duration", "Int", [], ["1ms"], []⟩ "1ms"
      (by decide),
    c8_suffix_literal_selection.2 "aivi.time" "1ms" [] [] [] (by decide)⟩

/-- C9: plain-export emission never reads the record-shape or type-name
model: `basic_export_test` gives the same write for any two type-definition
and record-shape models, and consequently two DSL sources agreeing on
exports, classes, constructors and domain blocks produce identical per-file
output (writes and count), whatever their record shapes — the synthesizer's
result is never written. -/
theorem c9_record_model_is_dead :
    (∀ mod e (td td' : List String) (rt rt' : List (String × List (String × String)))
        (cs : List String),
      basic_export_test mod e td rt cs = basic_export_test mod e td' rt' cs) ∧
    (∀ mod s1 s2, split_exports s1 = split_exports s2 →
      parse_class_defs s1 = parse_class_defs s2 →
      parse_ctor_exports s1 = parse_ctor_exports s2 →
      parse_domain_defs s1 = parse_domain_defs s2 →
      processSrc mod s1 = processSrc mod s2) := by
  constructor
  · intro mod e td td' rt rt' cs
    rfl
  · intro mod s1 s2 h1 h2 h3 h4
    simp only [processSrc, h1, h2, h3, h4]
    rfl

/-- Two sources: same exports, classes, constructors and domains, but
different record shapes. -/
def recordShapeSourceA : String := "export foo\nUrl = \x7b a: Int \x7d"

/-- Variant of `recordShapeSourceA` with a different record shape. -/
def recordShapeSourceB : String := "export foo\nUrl = \x7b b: Text \x7d"

/-- Witness for C9: the two sources have different parsed record shapes yet
generate identical output. -/
theorem c9_record_model_is_dead_witness :
    parse_record_type_aliases recordShapeSourceA ≠ parse_record_type_aliases recordShapeSourceB ∧
    processSrc "aivi.demo" recordShapeSourceA = processSrc "aivi.demo" recordShapeSourceB :=
  ⟨by decide,
    c9_record_model_is_dead.2 "aivi.demo" recordShapeSourceA recordShapeSourceB
      (by decide) (by decide) (by decide) (by decide)⟩

/-- Running brace balance stays strictly positive through every line of the
list (the block never closes). -/
def neverCloses : Int → List String → Bool
  | _, [] => true
  | b, cur :: rest =>
      let b' := b + braceDelta cur
      if 0 < b' then neverCloses b' rest else false

/-- When the balance never returns to zero, the inner scan consumes the
whole input as the block and leaves nothing. -/
theorem scanBlock_of_neverCloses :
    ∀ (l : List String) (b : Int), 0 < b → neverCloses b l = true → scanBlock b l = (l, []) := by
  intro l
  induction l with
  | nil => intro b _ _; rfl
  | cons cur rest ih =>
      intro b hb hn
      simp only [neverCloses] at hn
      simp only [scanBlock, if_neg (not_le.mpr hb)]
      split_ifs at hn with hb'
      rw [if_pos hb', ih _ hb' hn]

/-- C10: domain-block scanning terminates on every input; on a block whose
braces never return to depth zero the block body is the whole remainder of
the input, exactly one `DomainDef` is produced for it, and the scan is
independent of any fuel bound of at least the number of lines (it stops by
exhausting the input, never by the bound). -/
theorem c10_unbalanced_domain_block (src hdr : String) (body : List String)
    (nm car : String)
    (h1 : pySplitlines src = hdr :: body)
    (h2 : matchDomainHead hdr = some (nm, car))
    (h3 : neverCloses 1 body = true) :
    parse_domain_defs src = [mkDomain nm (pyStrip car) body] ∧
    ∀ fuel, body.length + 1 ≤ fuel →
      parseDomainLinesGo fuel (hdr :: body) = [mkDomain nm (pyStrip car) body] := by
  have hstep : parseDomainLinesGo (body.length + 1) (hdr :: body) =
      [mkDomain nm (pyStrip car) body] := by
    simp only [parseDomainLinesGo, h2]
    rw [scanBlock_of_neverCloses body 1 (by omega) h3]
    simp [parseDomainLinesGo_nil]
  constructor
  · rw [parse_domain_defs, h1]
    simpa using hstep
  · intro fuel hf
    rw [parseDomainLinesGo_fuel fuel (body.length + 1) (hdr :: body) (by simpa using hf)
      (by simp)]
    exact hstep

/-- A domain block whose opening brace is never closed. -/
def unbalancedDomainSource : String :=
  "domain D over Int = \x7b\n  1ms = base\n  eom = EndOfMonth"

/-- Witness for C10: the unterminated block runs to the end of the input and
still yields exactly one `DomainDef`. -/
theorem c10_unbalanced_domain_block_witness :
    parse_domain_defs unbalancedDomainSource =
      [⟨"D", "Int", [], ["1ms"], ["eom"]⟩] :=
  (c10_unbalanced_domain_block unbalancedDomainSource "domain D over Int = \x7b"
    ["  1ms = base", "  eom = EndOfMonth"] "D" "Int"
    (by decide) (by decide) (by decide)).1

/-- A well-formed host file: module `aivi.demo` exporting `foo`. -/
def demoGoodRs : String :=
  "pub const MODULE_NAME: &str = \x22aivi.demo\x22;\npub const SOURCE: &str = r#\x22\nexport foo\n\x22#;"

/-- A second well-formed host file: module `aivi.other` exporting `bar`. -/
def demoGoodRs2 : String :=
  "pub const MODULE_NAME: &str = \x22aivi.other\x22;\npub const SOURCE: &str = r#\x22\nexport bar\n\x22#;"

/-- A host file missing the module-name marker. -/
def demoBadRs : String := "no markers here"

/-- A different host file also missing the module-name marker. -/
def demoBadRs2 : String := "also nothing, but different text"

/-- Did a file pass structural extraction? -/
def rsOk (g : String × String) : Bool :=
  match processRs g.2 with
  | Except.ok _ => true
  | Except.error _ => false

/-- C6 counterexample: with a well-formed `a.rs` before a malformed `b.rs`,
the run aborts — but the write for `a.rs` has already been produced
(refuting "no output files are produced"), and the fatal message is the
constant `missing MODULE_NAME` for either malformed file (refuting
"file-identifying message"). -/
theorem c6_counterexample :
    (mainRun [("a.rs", demoGoodRs), ("b.rs", demoBadRs)]).1 ≠ [] ∧
    (mainRun [("a.rs", demoGoodRs), ("b.rs", demoBadRs)]).2 =
      Except.error "missing MODULE_NAME" ∧
    (mainRun [("a.rs", demoGoodRs), ("d.rs", demoBadRs2)]).2 =
      Except.error "missing MODULE_NAME" :=
  ⟨by decide, rfl, rfl⟩

/-- C6 (amended): a structurally malformed file aborts the run when it is
reached — the files after it contribute no writes and the error is the
missing-marker message (not a file-identifying one), while the files before
it have already written their outputs; on success the process prints exactly
one count line. -/
theorem c6_failfast_keeps_earlier_writes (pre : List (String × String))
    (f : String × String) (rest : List (String × String)) (e : String)
    (h1 : ∀ g ∈ pre, rsOk g = true)
    (h2 : processRs f.2 = Except.error e) :
    runFiles (pre ++ f :: rest) = ((runFiles pre).1, Except.error e) ∧
    (∀ files n, (mainRun files).2 = Except.ok n →
      mainStdout files = some ("generated " ++ toString n ++ " export tests under " ++ OUT)) := by
  constructor
  · induction pre with
    | nil => simp [runFiles, h2]
    | cons g pre' ih =>
        have hg := h1 g (List.mem_cons_self g pre')
        cases hpg : processRs g.2 with
        | error err => simp [rsOk, hpg] at hg
        | ok w =>
            have ih' := ih (fun g' hg' => h1 g' (List.mem_cons_of_mem _ hg'))
            simp only [List.cons_append, runFiles, hpg, List.append_eq]
            rw [ih']
  · intro files n h
    simp only [mainStdout, h]

/-- Witness for C6 (amended): concrete two-file run, aborting on the second
file while keeping the first file's write; and the success-path count line
of a single-file run. -/
theorem c6_failfast_keeps_earlier_writes_witness :
    runFiles [("a.rs", demoGoodRs), ("b.rs", demoBadRs)] =
      ((runFiles [("a.rs", demoGoodRs)]).1, Except.error "missing MODULE_NAME") ∧
    mainStdout [("a.rs", demoGoodRs)] =
      some "generated 1 export tests under integration-tests/stdlib" :=
  ⟨(c6_failfast_keeps_earlier_writes [("a.rs", demoGoodRs)] ("b.rs", demoBadRs) [] _
      (by decide) rfl).1,
    (c6_failfast_keeps_earlier_writes [("a.rs", demoGoodRs)] ("b.rs", demoBadRs) [] _
      (by decide) rfl).2 [("a.rs", demoGoodRs)] 1 rfl⟩

/-- Two sorted lists with the same elements and duplicate-free first
components are equal (the sort key is the file name). -/
theorem sorted_perm_nodup_eq :
    ∀ (l1 l2 : List (String × String)), l1.Perm l2 → l1.Sorted nameLe → l2.Sorted nameLe →
      (l1.map Prod.fst).Nodup → l1 = l2 := by
  intro l1
  induction l1 with
  | nil =>
      intro l2 hp _ _ _
      exact (hp.symm.eq_nil).symm
  | cons a t1 ih =>
      intro l2 hp hs1 hs2 hnd
      cases l2 with
      | nil => exact absurd hp.eq_nil (by simp)
      | cons b t2 =>
          by_cases hab : a = b
          · subst hab
            have hp' := hp.cons_inv
            simp only [List.map_cons, List.nodup_cons] at hnd
            have ht : t1 = t2 :=
              ih t2 hp' (List.sorted_cons.mp hs1).2 (List.sorted_cons.mp hs2).2 hnd.2
            rw [ht]
          · have ha2 : a ∈ b :: t2 := hp.subset (List.mem_cons_self a t1)
            have hb1 : b ∈ a :: t1 := hp.symm.subset (List.mem_cons_self b t2)
            have ha2' : a ∈ t2 := by
              cases ha2 with
              | head => exact absurd rfl hab
              | tail _ h => exact h
            have hb1' : b ∈ t1 := by
              cases hb1 with
              | head => exact absurd rfl (fun he => hab he.symm)
              | tail _ h => exact h
            have hab1 : nameLe a b := (List.sorted_cons.mp hs1).1 b hb1'
            have hba1 : nameLe b a := (List.sorted_cons.mp hs2).1 a ha2'
            have hname : a.1 = b.1 := nameLe_antisymm hab1 hba1
            have hmem : a.1 ∈ t1.map Prod.fst := by
              rw [hname]
              exact List.mem_map_of_mem Prod.fst hb1'
            simp only [List.map_cons, List.nodup_cons] at hnd
            exact absurd hmem hnd.1

/-- The last write to a path in a write list, if any. -/
def lastWrite : List (String × String) → String → Option String
  | [], _ => none
  | w :: rest, q =>
      match lastWrite rest q with
      | some v => some v
      | none => if q = w.1 then some w.2 else none

/-- Replay of a write list seen through the last write per path. -/
theorem applyWrites_eq_lastWrite :
    ∀ (ws : List (String × String)) (tree : String → Option String) (q : String),
      applyWrites ws tree q =
        match lastWrite ws q with
        | some v => some v
        | none => tree q := by
  intro ws
  induction ws with
  | nil => intro tree q; rfl
  | cons w rest ih =>
      intro tree q
      show applyWrites rest (fun q' => if q' = w.1 then some w.2 else tree q') q = _
      rw [ih]
      simp only [lastWrite]
      cases h : lastWrite rest q with
      | some v => rfl
      | none =>
          by_cases hq : q = w.1
          · simp [hq]
          · simp [hq]

/-- Replaying the same write list twice gives the same tree as once. -/
theorem applyWrites_idem (ws : List (String × String)) (tree : String → Option String) :
    applyWrites ws (applyWrites ws tree) = applyWrites ws tree := by
  funext q
  rw [applyWrites_eq_lastWrite ws (applyWrites ws tree) q, applyWrites_eq_lastWrite ws tree q]
  cases h : lastWrite ws q with
  | some v => rfl
  | none => rfl

/-- C2: the generator is deterministic — the run (writes, in order, and
outcome) is invariant under any permutation of the directory-iteration
order (file names in a directory are distinct), and replaying a run's
writes over its own output tree changes nothing, so repeated runs produce
byte-identical output trees. -/
theorem c2_determinism (files1 files2 : List (String × String))
    (tree : String → Option String)
    (hperm : files1.Perm files2) (hnd : (files1.map Prod.fst).Nodup) :
    mainRun files1 = mainRun files2 ∧
    applyWrites (mainRun files1).1 (applyWrites (mainRun files1).1 tree) =
      applyWrites (mainRun files1).1 tree := by
  constructor
  · have hs : sortFiles files1 = sortFiles files2 := by
      apply sorted_perm_nodup_eq
      · exact (List.perm_insertionSort nameLe _).trans
          ((hperm.filter _).trans (List.perm_insertionSort nameLe _).symm)
      · exact List.sorted_insertionSort nameLe _
      · exact List.sorted_insertionSort nameLe _
      · have h1 : ((files1.filter
            (fun f => pyEndswith f.1 ".rs" && !(f.1 = "mod.rs" : Bool))).map Prod.fst).Nodup :=
          hnd.sublist ((List.filter_sublist _).map Prod.fst)
        exact (((List.perm_insertionSort nameLe _).map Prod.fst).nodup_iff).mpr h1
    rw [mainRun, mainRun, hs]
  · exact applyWrites_idem _ _

/-- Witness for C2: the two demo files in either order give the identical
run, and replaying its writes over the produced tree is a fixed point. -/
theorem c2_determinism_witness :
    mainRun [("a.rs", demoGoodRs), ("b.rs", demoGoodRs2)] =
      mainRun [("b.rs", demoGoodRs2), ("a.rs", demoGoodRs)] ∧
    applyWrites (mainRun [("a.rs", demoGoodRs), ("b.rs", demoGoodRs2)]).1
        (applyWrites (mainRun [("a.rs", demoGoodRs), ("b.rs", demoGoodRs2)]).1
          (fun _ => none)) =
      applyWrites (mainRun [("a.rs", demoGoodRs), ("b.rs", demoGoodRs2)]).1 (fun _ => none) :=
  c2_determinism [("a.rs", demoGoodRs), ("b.rs", demoGoodRs2)]
    [("b.rs", demoGoodRs2), ("a.rs", demoGoodRs)] (fun _ => none)
    (List.Perm.swap ("b.rs", demoGoodRs2) ("a.rs", demoGoodRs) [])
    (by decide)

end GenIT
